import Mathlib

/-!
Verification development for the healthcare-staffing market-rate resolution
engine (files `database_service.py`, `main.py`, `forecasting_integration.py`).
Python strings are modelled as `List Char`, SQL numeric columns as `ℚ`
(`Option ℚ` where the column is nullable), and dates as rational "days before
now" (`ageDays`; negative values are future dates).  Each SQL query is
shallow-embedded as a pure function over a list of rows.
-/

/-- Characters matched by the regex class `\s`. -/
def isSpaceChar (c : Char) : Bool :=
  c = ' ' || c = '\t' || c = '\n' || c = '\r' || c = '\x0B' || c = '\x0C'

/-- Left/right test for the alternation `(^|\s|-)` resp. `($|\s|-)`:
`none` stands for start (resp. end) of string. -/
def boundaryOk (c : Option Char) : Bool :=
  match c with
  | none => true
  | some c => isSpaceChar c || c = '-'

/-- Right test for the alternation `($|\s)` (no hyphen), as used by the inline
regex of the client-ranking queries. -/
def spaceOk (c : Option Char) : Bool :=
  match c with
  | none => true
  | some c => isSpaceChar c

/-- Trivial boundary test (plain substring search). -/
def anyOk (c : Option Char) : Bool :=
  match c with
  | none => true
  | some _ => true

/-- `frontMatch R S t` holds when `t` starts with the literal `S` and the
character of `t` right after that occurrence (or end of string) passes `R`. -/
def frontMatch (R : Option Char → Bool) : List Char → List Char → Bool
  | [], [] => R none
  | [], c :: _ => R (some c)
  | _ :: _, [] => false
  | a :: as, b :: bs => a = b && frontMatch R as bs

/-- Unanchored search for the regex `L S R` where `L` and `R` are one-character
(or string-edge) lookarounds: scans every position of `t`, carrying the
previous character in `prev` (`none` at the very start). -/
def searchPat (Sp : List Char) (L R : Option Char → Bool) : Option Char → List Char → Bool
  | prev, [] => L prev && frontMatch R Sp []
  | prev, c :: rest => (L prev && frontMatch R Sp (c :: rest)) || searchPat Sp L R (some c) rest

/-- The character standing right before the current scan position: the last
character of the consumed part `pre`, or the carried `prev` when `pre` is empty. -/
def preLast : Option Char → List Char → Option Char
  | prev, [] => prev
  | _, c :: rest => preLast (some c) rest

/-- Plain substring search, modelling Python's `in` on strings. -/
def hasSub (needle hay : List Char) : Bool :=
  searchPat needle anyOk anyOk none hay

/-- The two shapes of pattern returned by
`DatabaseService._normalize_specialty_for_query`: the hard-coded CRNA
alternation `(APRN - CRNA|Certified Nurse Anesthetist|\bCRNA\b)`, or the
boundary-anchored default `(^|\s|-){specialty}($|\s|-)`. -/
inductive SpecialtyPattern
  | crna
  | bounded (s : List Char)
deriving DecidableEq

/-- Regex-search semantics of a `SpecialtyPattern` against a column value.
The pattern is consumed by PostgreSQL `~`, whose ARE dialect reads `\b` as
the backspace character escape (a word-boundary constraint would be `\y`),
so the third CRNA alternative matches the literal backspace-delimited string. -/
def acceptsPattern : SpecialtyPattern → List Char → Bool
  | .crna, t =>
      hasSub "APRN - CRNA".data t ||
      hasSub "Certified Nurse Anesthetist".data t ||
      hasSub "\x08CRNA\x08".data t
  | .bounded s, t => searchPat s boundaryOk boundaryOk none t

/-- Python `str.upper`. -/
def pyUpper (s : List Char) : List Char := s.map Char.toUpper

/-- Python `str.strip` (whitespace on both ends). -/
def pyStrip (s : List Char) : List Char :=
  ((s.dropWhile isSpaceChar).reverse.dropWhile isSpaceChar).reverse

/-- `DatabaseService._normalize_specialty_for_query`: CRNA (case-folded,
trimmed) gets the alternation pattern, every other specialty the
boundary-anchored pattern built from the raw input. -/
def normalizeSpecialtyForQuery (s : List Char) : SpecialtyPattern :=
  if pyStrip (pyUpper s) = "CRNA".data then SpecialtyPattern.crna
  else SpecialtyPattern.bounded s

theorem frontMatch_iff (R : Option Char → Bool) (S t : List Char) :
    frontMatch R S t = true ↔ ∃ suf, t = S ++ suf ∧ R suf.head? = true := by
  induction S generalizing t with
  | nil =>
    cases t with
    | nil => simp [frontMatch]
    | cons c rest =>
      simp only [frontMatch, List.nil_append]
      constructor
      · intro h; exact ⟨c :: rest, rfl, h⟩
      · rintro ⟨suf, hsuf, hR⟩; subst hsuf; exact hR
  | cons a as ih =>
    cases t with
    | nil =>
      simp [frontMatch]
    | cons b bs =>
      simp only [frontMatch, Bool.and_eq_true, decide_eq_true_eq, List.cons_append]
      rw [ih]
      constructor
      · rintro ⟨hab, suf, hsuf, hR⟩
        exact ⟨suf, by rw [hab, hsuf], hR⟩
      · rintro ⟨suf, hsuf, hR⟩
        cases hsuf
        exact ⟨rfl, suf, rfl, hR⟩

theorem searchPat_iff (Sp : List Char) (L R : Option Char → Bool) (t : List Char) :
    ∀ prev, searchPat Sp L R prev t = true ↔
      ∃ pre suf, t = pre ++ Sp ++ suf ∧ L (preLast prev pre) = true ∧ R suf.head? = true := by
  induction t with
  | nil =>
    intro prev
    simp only [searchPat, Bool.and_eq_true]
    rw [frontMatch_iff]
    constructor
    · rintro ⟨hL, suf, hsuf, hR⟩
      rcases List.append_eq_nil.mp hsuf.symm with ⟨hS, hsuf0⟩
      exact ⟨[], [], by simp [hS, hsuf0], by simpa [preLast] using hL, by simpa [hsuf0] using hR⟩
    · rintro ⟨pre, suf, heq, hL, hR⟩
      rcases List.append_eq_nil.mp heq.symm with ⟨h1, hsuf0⟩
      rcases List.append_eq_nil.mp h1 with ⟨hpre0, hS⟩
      subst hpre0
      exact ⟨by simpa [preLast] using hL, suf, by simp [hS, hsuf0], hR⟩
  | cons c rest ih =>
    intro prev
    simp only [searchPat, Bool.or_eq_true, Bool.and_eq_true]
    constructor
    · rintro (⟨hL, hfm⟩ | htail)
      · rcases (frontMatch_iff R Sp (c :: rest)).mp hfm with ⟨suf, hsuf, hR⟩
        exact ⟨[], suf, by simpa using hsuf, by simpa [preLast] using hL, hR⟩
      · rcases (ih (some c)).mp htail with ⟨pre, suf, heq, hL, hR⟩
        exact ⟨c :: pre, suf, by simp [heq], by simpa [preLast] using hL, hR⟩
    · rintro ⟨pre, suf, heq, hL, hR⟩
      cases pre with
      | nil =>
        left
        refine ⟨by simpa [preLast] using hL, ?_⟩
        exact (frontMatch_iff R Sp (c :: rest)).mpr ⟨suf, by simpa using heq, hR⟩
      | cons p ps =>
        right
        have hc : p = c := by
          have := heq
          simp only [List.cons_append, List.cons.injEq] at this
          exact this.1.symm
        subst hc
        have hrest : rest = ps ++ Sp ++ suf := by
          have := heq
          simp only [List.cons_append, List.cons.injEq] at this
          simpa using this.2
        exact (ih (some p)).mpr ⟨ps, suf, hrest, by simpa [preLast] using hL, hR⟩

theorem preLast_append_singleton (prev : Option Char) (l : List Char) (c : Char) :
    preLast prev (l ++ [c]) = some c := by
  induction l generalizing prev with
  | nil => rfl
  | cons a as ih => simpa [preLast] using ih (some a)

/-- C5: for a non-empty specialty `S` other than the multi-variant CRNA
credential, the normalizer's boundary pattern matches `"X S"`, `"S X"`, and
`S` alone; any accepted string decomposes as `pre ++ S ++ suf` with a
start/whitespace/hyphen boundary on the left and an end/whitespace/hyphen
boundary on the right; and the pattern for `"ICU"` does not match `"NICU"`. -/
theorem specialty_pattern_boundary_matching (S X t : List Char)
    (_hne : S ≠ [])
    (hcrna : pyStrip (pyUpper S) ≠ "CRNA".data) :
    acceptsPattern (normalizeSpecialtyForQuery S) (X ++ ' ' :: S) = true ∧
    acceptsPattern (normalizeSpecialtyForQuery S) (S ++ ' ' :: X) = true ∧
    acceptsPattern (normalizeSpecialtyForQuery S) S = true ∧
    (acceptsPattern (normalizeSpecialtyForQuery S) t = true →
      ∃ pre suf, t = pre ++ S ++ suf ∧
        boundaryOk (preLast none pre) = true ∧ boundaryOk suf.head? = true) ∧
    acceptsPattern (normalizeSpecialtyForQuery "ICU".data) "NICU".data = false := by
  have hb : normalizeSpecialtyForQuery S = SpecialtyPattern.bounded S := by
    simp [normalizeSpecialtyForQuery, hcrna]
  refine ⟨?_, ?_, ?_, ?_, by decide⟩
  · rw [hb]
    show searchPat S boundaryOk boundaryOk none (X ++ ' ' :: S) = true
    refine (searchPat_iff S boundaryOk boundaryOk _ none).mpr ⟨X ++ [' '], [], ?_, ?_, rfl⟩
    · simp
    · rw [preLast_append_singleton]; decide
  · rw [hb]
    show searchPat S boundaryOk boundaryOk none (S ++ ' ' :: X) = true
    refine (searchPat_iff S boundaryOk boundaryOk _ none).mpr ⟨[], ' ' :: X, by simp, rfl, rfl⟩
  · rw [hb]
    show searchPat S boundaryOk boundaryOk none S = true
    exact (searchPat_iff S boundaryOk boundaryOk _ none).mpr ⟨[], [], by simp, rfl, rfl⟩
  · rw [hb]
    intro hacc
    exact (searchPat_iff S boundaryOk boundaryOk _ none).mp hacc

/-- Closed instance of the C5 theorem at `S = "ICU"`, `X = "RN -"`,
`t = "RN - ICU"`: every hypothesis is discharged by computation. -/
theorem specialty_pattern_boundary_matching_witness :
    acceptsPattern (normalizeSpecialtyForQuery "ICU".data) ("RN -".data ++ ' ' :: "ICU".data) = true ∧
    acceptsPattern (normalizeSpecialtyForQuery "ICU".data) ("ICU".data ++ ' ' :: "RN -".data) = true ∧
    acceptsPattern (normalizeSpecialtyForQuery "ICU".data) "ICU".data = true ∧
    (acceptsPattern (normalizeSpecialtyForQuery "ICU".data) "RN - ICU".data = true →
      ∃ pre suf, "RN - ICU".data = pre ++ "ICU".data ++ suf ∧
        boundaryOk (preLast none pre) = true ∧ boundaryOk suf.head? = true) ∧
    acceptsPattern (normalizeSpecialtyForQuery "ICU".data) "NICU".data = false :=
  specialty_pattern_boundary_matching "ICU".data "RN -".data "RN - ICU".data
    (by decide) (by decide)

/-- One row of the `vmsrawscrape_prod` table, restricted to the columns the
modelled queries read.  `ageDays` is the start date expressed as days before
now (negative = future); nullable columns are `Option`s. -/
structure Row where
  newSpecialty : List Char
  specialty : List Char
  city : List Char
  state : List Char
  clientName : Option (List Char)
  newProfession : Option (List Char)
  billRate : Option ℚ
  weeklyPay : Option ℚ
  hourlyPay : Option ℚ
  ageDays : ℚ
deriving DecidableEq

/-- The three rate metric columns. -/
inductive RateCol
  | bill
  | hourly
  | weekly
deriving DecidableEq

/-- Read the selected metric column from a row. -/
def colValue (r : Row) : RateCol → Option ℚ
  | .bill => r.billRate
  | .hourly => r.hourlyPay
  | .weekly => r.weeklyPay

/-- `get_rate_recommendation` lines 145-154: map the `rate_type` token to a
column, defaulting to the bill-rate column. -/
def rateColumnFor (rt : Option (List Char)) : RateCol :=
  if rt = some "hourly_pay".data then RateCol.hourly
  else if rt = some "weekly_pay".data then RateCol.weekly
  else RateCol.bill

/-- The human label attached to the selected column. -/
def rateLabelFor (rt : Option (List Char)) : List Char :=
  if rt = some "hourly_pay".data then "hourly pay".data
  else if rt = some "weekly_pay".data then "weekly pay".data
  else "bill rate".data

/-- Line 182: `0.35 if rate_type in ['weekly_pay', 'hourly_pay'] else 0.25`. -/
def floorPercentileFor (rt : Option (List Char)) : ℚ :=
  if rt = some "weekly_pay".data ∨ rt = some "hourly_pay".data then 0.35 else 0.25

/-- SQL `x BETWEEN lo AND hi` on a nullable column: a NULL never passes. -/
def inBoundsQ (x : Option ℚ) (lo hi : ℚ) : Bool :=
  match x with
  | none => false
  | some v => lo ≤ v && v ≤ hi

/-- The sanity bounds repeated in every query:
`"billRate" BETWEEN 30 AND 800 AND "weeklyPay" BETWEEN 1200 AND 15000 AND
"hourlyPay" BETWEEN 10 AND 250`. -/
def passesRateBounds (r : Row) : Bool :=
  inBoundsQ r.billRate 30 800 && inBoundsQ r.weeklyPay 1200 15000 &&
    inBoundsQ r.hourlyPay 10 250

/-- `_get_profession_filter`: exact equality on `"newProfession"` when a
profession is supplied, no restriction otherwise. -/
def professionOk (p : Option (List Char)) (r : Row) : Bool :=
  match p with
  | none => true
  | some v => r.newProfession = some v

/-- Python `str.lower`. -/
def pyLower (s : List Char) : List Char := s.map Char.toLower

/-- SQL `LOWER(a) = LOWER(b)`. -/
def lowerEq (a b : List Char) : Bool := pyLower a = pyLower b

/-- Arithmetic mean of a list (SQL `AVG`); `0` on the empty list, which the
callers never hit because groups are non-empty. -/
def listAvg (l : List ℚ) : ℚ := l.sum / l.length

/-- SQL `PERCENTILE_CONT(p) WITHIN GROUP (ORDER BY v)`: linear interpolation
between the order statistics around rank `p * (n - 1)`. -/
def percentileCont (p : ℚ) (l : List ℚ) : ℚ :=
  let s := l.mergeSort (fun a b => decide (a ≤ b))
  match s with
  | [] => 0
  | _ =>
    let h := p * ((s.length : ℚ) - 1)
    let k : Nat := h.floor.toNat
    let lo := s.getD k 0
    let hi := if k + 1 < s.length then s.getD (k + 1) 0 else lo
    lo + (h - (k : ℚ)) * (hi - lo)

/-- The structured query parameters read via `getattr(parameters, ..., None)`. -/
structure Params where
  specialty : Option (List Char)
  location : Option (List Char)
  city : Option (List Char)
  state : Option (List Char)
  rate_type : Option (List Char)
  profession : Option (List Char)
deriving DecidableEq

/-- Python truthiness of an optional string: `None` and `""` are falsy. -/
def truthyOpt : Option (List Char) → Bool
  | none => false
  | some s => !s.isEmpty

/-- One aggregate row produced by a tier query of `get_rate_recommendation`. -/
structure TierRow where
  specialty : List Char
  location : List Char
  recommended_min : ℚ
  recommended_max : ℚ
  competitive_floor : ℚ
  market_average : ℚ
  avg_weekly_pay : ℚ
  avg_hourly_pay : ℚ
  avg_bill_rate : ℚ
  sample_size : Nat
deriving DecidableEq

/-- The shared SELECT list of the three tier queries: ±2.5% band around the
average of the active metric, the chosen percentile as competitive floor, the
three per-metric averages, and `COUNT(*)`. -/
def mkGroupStats (spec loc : List Char) (g : List Row) (col : RateCol) (fp : ℚ) : TierRow :=
  let vals := g.filterMap (fun r => colValue r col)
  let avg := listAvg vals
  { specialty := spec
    location := loc
    recommended_min := avg * 0.975
    recommended_max := avg * 1.025
    competitive_floor := percentileCont fp vals
    market_average := avg
    avg_weekly_pay := listAvg (g.filterMap (·.weeklyPay))
    avg_hourly_pay := listAvg (g.filterMap (·.hourlyPay))
    avg_bill_rate := listAvg (g.filterMap (·.billRate))
    sample_size := g.length }

/-- `ORDER BY COUNT(*) DESC LIMIT 1` over a list of candidate group keys:
first key of maximal count (stable descending sort, first row fetched). -/
def argmaxBy {α : Type} (f : α → Nat) : List α → Option α
  | [] => none
  | a :: as =>
    match argmaxBy f as with
    | none => some a
    | some b => if f a < f b then some b else some a

/-- The WHERE conditions shared by all three tiers of
`get_rate_recommendation`: specialty regex, non-null active metric, sanity
bounds, 3-month lookback (calendar months approximated as 90 days; no claim
depends on the window length), and the optional profession filter. -/
def recBaseFilter (pat : SpecialtyPattern) (col : RateCol) (prof : Option (List Char))
    (r : Row) : Bool :=
  acceptsPattern pat r.newSpecialty && (colValue r col).isSome && passesRateBounds r &&
    r.ageDays ≤ 90 && professionOk prof r

/-- Specialty pattern computed once at the top of `get_rate_recommendation`. -/
def specPattern (p : Params) : SpecialtyPattern :=
  normalizeSpecialtyForQuery (p.specialty.getD [])

/-- Tier 1 (lines 185-218): city+state scope, grouped by
`("newSpecialty", city, state)`, `HAVING COUNT(*) >= 5`,
`ORDER BY COUNT(*) DESC LIMIT 1`, `state as location`. -/
def cityTier (db : List Row) (p : Params) : Option TierRow :=
  if truthyOpt p.city && truthyOpt p.state then
    let col := rateColumnFor p.rate_type
    let c := p.city.getD []
    let s := p.state.getD []
    let ms := db.filter (fun r =>
      recBaseFilter (specPattern p) col p.profession r &&
        lowerEq r.city c && lowerEq r.state s)
    let keys := (ms.map (fun r => (r.newSpecialty, r.city, r.state))).dedup
    let cnt := fun k => (ms.filter (fun r => (r.newSpecialty, r.city, r.state) = k)).length
    (argmaxBy cnt (keys.filter (fun k => 5 ≤ cnt k))).map (fun k =>
      mkGroupStats k.1 k.2.2 (ms.filter (fun r => (r.newSpecialty, r.city, r.state) = k))
        col (floorPercentileFor p.rate_type))
  else none

/-- Tier 2 (lines 226-257): state-only scope with `state_code = state or
location`, grouped by `("newSpecialty", state)`, **no HAVING clause**,
`ORDER BY COUNT(*) DESC LIMIT 1`, `state as location`. -/
def stateTier (db : List Row) (p : Params) : Option TierRow :=
  if truthyOpt p.state || truthyOpt p.location then
    let col := rateColumnFor p.rate_type
    let sc := if truthyOpt p.state then p.state.getD [] else p.location.getD []
    let ms := db.filter (fun r =>
      recBaseFilter (specPattern p) col p.profession r && lowerEq r.state sc)
    let keys := (ms.map (fun r => (r.newSpecialty, r.state))).dedup
    let cnt := fun k => (ms.filter (fun r => (r.newSpecialty, r.state) = k)).length
    (argmaxBy cnt keys).map (fun k =>
      mkGroupStats k.1 k.2 (ms.filter (fun r => (r.newSpecialty, r.state) = k))
        col (floorPercentileFor p.rate_type))
  else none

/-- Tier 3 (lines 263-291): national scope, grouped by `"newSpecialty"`,
`HAVING COUNT(*) >= 5`, no ORDER BY (first qualifying group is fetched),
literal `'National'` location. -/
def natTier (db : List Row) (p : Params) : Option TierRow :=
  let col := rateColumnFor p.rate_type
  let ms := db.filter (recBaseFilter (specPattern p) col p.profession)
  let keys := (ms.map (·.newSpecialty)).dedup
  let cnt := fun k => (ms.filter (fun r => r.newSpecialty = k)).length
  (keys.find? (fun k => 5 ≤ cnt k)).map (fun k =>
    mkGroupStats k "National".data (ms.filter (fun r => r.newSpecialty = k))
      col (floorPercentileFor p.rate_type))

/-- The dictionary returned by `get_rate_recommendation` (lines 298-311). -/
structure RateRec where
  specialty : List Char
  location : List Char
  recommended_min : ℚ
  recommended_max : ℚ
  competitive_floor : ℚ
  market_average : ℚ
  avg_weekly_pay : Option ℚ
  avg_hourly_pay : Option ℚ
  avg_bill_rate : Option ℚ
  rate_type : List Char
  sample_size : Nat
deriving DecidableEq

/-- Lines 298-311: package an aggregate row as the returned dictionary; the
three display averages use Python truthiness (`... if result.get(k) else None`). -/
def mkRateRec (p : Params) (t : TierRow) : RateRec :=
  { specialty := t.specialty
    location := t.location
    recommended_min := t.recommended_min
    recommended_max := t.recommended_max
    competitive_floor := t.competitive_floor
    market_average := t.market_average
    avg_weekly_pay := if t.avg_weekly_pay ≠ 0 then some t.avg_weekly_pay else none
    avg_hourly_pay := if t.avg_hourly_pay ≠ 0 then some t.avg_hourly_pay else none
    avg_bill_rate := if t.avg_bill_rate ≠ 0 then some t.avg_bill_rate else none
    rate_type := rateLabelFor p.rate_type
    sample_size := t.sample_size }

/-- `DatabaseService.get_rate_recommendation`: bail out without a specialty,
then try city+state, state-only, national, in order, stopping at the first
tier that yields a row. -/
def getRateRecommendation (db : List Row) (p : Params) : Option RateRec :=
  if truthyOpt p.specialty then
    (((cityTier db p).or (stateTier db p)).or (natTier db p)).map (mkRateRec p)
  else none

theorem argmaxBy_mem {α : Type} (f : α → Nat) :
    ∀ (l : List α) (a : α), argmaxBy f l = some a → a ∈ l := by
  intro l
  induction l with
  | nil => intro a h; simp [argmaxBy] at h
  | cons x xs ih =>
    intro a h
    simp only [argmaxBy] at h
    cases hx : argmaxBy f xs with
    | none =>
      rw [hx] at h
      simp only [Option.some.injEq] at h
      exact h ▸ List.mem_cons_self x xs
    | some b =>
      rw [hx] at h
      by_cases hf : f x < f b
      · simp only [if_pos hf, Option.some.injEq] at h
        exact List.mem_cons_of_mem x (h ▸ ih b hx)
      · simp only [if_neg hf, Option.some.injEq] at h
        exact h ▸ List.mem_cons_self x xs

theorem mkGroupStats_sample (spec loc : List Char) (g : List Row) (col : RateCol) (fp : ℚ) :
    (mkGroupStats spec loc g col fp).sample_size = g.length := rfl

theorem cityTier_sample_ge (db : List Row) (p : Params) (t : TierRow)
    (h : cityTier db p = some t) : 5 ≤ t.sample_size := by
  by_cases hc : (truthyOpt p.city && truthyOpt p.state) = true
  · simp only [cityTier, hc, if_true] at h
    rcases Option.map_eq_some'.mp h with ⟨k, hk, ht⟩
    have hmem := argmaxBy_mem _ _ _ hk
    have h5 := of_decide_eq_true (List.mem_filter.mp hmem).2
    rw [← ht]
    exact h5
  · simp only [cityTier, hc, if_false] at h
    exact absurd h (by simp)

theorem len_filter_pos {α : Type} (q : α → Bool) (l : List α) (r : α)
    (hr : r ∈ l) (hq : q r = true) : 1 ≤ (l.filter q).length :=
  List.length_pos.mpr (List.ne_nil_of_mem (List.mem_filter.mpr ⟨hr, hq⟩))

theorem natTier_sample_ge (db : List Row) (p : Params) (t : TierRow)
    (h : natTier db p = some t) : 5 ≤ t.sample_size := by
  simp only [natTier] at h
  rcases Option.map_eq_some'.mp h with ⟨k, hk, ht⟩
  have h5 := List.find?_some hk
  simp only [decide_eq_true_eq] at h5
  rw [← ht]
  exact h5

theorem stateTier_sample_pos (db : List Row) (p : Params) (t : TierRow)
    (h : stateTier db p = some t) : 1 ≤ t.sample_size := by
  by_cases hc : (truthyOpt p.state || truthyOpt p.location) = true
  · simp only [stateTier, hc, if_true] at h
    rcases Option.map_eq_some'.mp h with ⟨k, hk, ht⟩
    have hmem := argmaxBy_mem _ _ _ hk
    rcases List.mem_map.mp (List.mem_dedup.mp hmem) with ⟨r, hr, hkey⟩
    rw [← ht, mkGroupStats_sample]
    exact len_filter_pos _ _ r hr (by simp [hkey])
  · simp only [stateTier, hc, if_false] at h
    exact absurd h (by simp)

theorem mkRateRec_sample (p : Params) (t : TierRow) :
    (mkRateRec p t).sample_size = t.sample_size := rfl

/-- C1 (amended): the city+state and national tiers of the rate cascade
enforce the minimum sample size of 5, but the state-only tier carries no
`HAVING` clause: it only guarantees a non-empty group, and every returned
recommendation either meets the threshold or is exactly the state tier's
aggregate. -/
theorem rate_cascade_min_sample_amended :
    (∀ db p t, cityTier db p = some t → 5 ≤ t.sample_size) ∧
    (∀ db p t, natTier db p = some t → 5 ≤ t.sample_size) ∧
    (∀ db p t, stateTier db p = some t → 1 ≤ t.sample_size) ∧
    (∀ db p r, getRateRecommendation db p = some r →
      5 ≤ r.sample_size ∨ ∃ t, stateTier db p = some t ∧ r = mkRateRec p t) := by
  refine ⟨cityTier_sample_ge, natTier_sample_ge, stateTier_sample_pos, ?_⟩
  intro db p r h
  by_cases hs : truthyOpt p.specialty = true
  · simp only [getRateRecommendation, hs, if_true] at h
    cases hcity : cityTier db p with
    | some t =>
      left
      rw [hcity] at h
      simp only [Option.or, Option.map, Option.some.injEq] at h
      rw [← h, mkRateRec_sample]
      exact cityTier_sample_ge db p t hcity
    | none =>
      rw [hcity] at h
      cases hstate : stateTier db p with
      | some t =>
        right
        rw [hstate] at h
        simp only [Option.or, Option.map, Option.some.injEq] at h
        exact ⟨t, rfl, h.symm⟩
      | none =>
        left
        rw [hstate] at h
        cases hnat : natTier db p with
        | some t =>
          rw [hnat] at h
          simp only [Option.or, Option.map, Option.some.injEq] at h
          rw [← h, mkRateRec_sample]
          exact natTier_sample_ge db p t hnat
        | none => rw [hnat] at h; simp [Option.or] at h
  · simp only [getRateRecommendation, hs, if_false] at h
    exact absurd h (by simp)

/-- A database holding a single recent ICU row in AZ. -/
def exRow : Row :=
  { newSpecialty := "RN - ICU".data
    specialty := "RN - ICU".data
    city := "Phoenix".data
    state := "AZ".data
    clientName := some "General Hospital".data
    newProfession := none
    billRate := some 100
    weeklyPay := some 2000
    hourlyPay := some 50
    ageDays := 10 }

def exDb : List Row := [exRow]

/-- A state-only ICU query against `exDb`. -/
def exParams : Params :=
  { specialty := some "ICU".data
    location := none
    city := none
    state := some "AZ".data
    rate_type := none
    profession := none }

/-- The single-row state group the state tier aggregates for `exDb`/`exParams`. -/
def exTier : TierRow := mkGroupStats "RN - ICU".data "AZ".data [exRow] RateCol.bill 0.25

/-- The recommendation the cascade returns for `exDb`/`exParams`. -/
def exRec : RateRec := mkRateRec exParams exTier

/-- C1 counterexample: with a single matching row (sample size 1 < 5) the
state-only tier produces the returned recommendation, so the claim that every
tier of `get_rate_recommendation` enforces the minimum-sample threshold of 5
is false on the code. -/
theorem state_tier_no_min_sample_counterexample :
    getRateRecommendation exDb exParams = some exRec ∧
    stateTier exDb exParams = some exTier ∧
    cityTier exDb exParams = none ∧
    exRec.sample_size = 1 ∧ (1 : Nat) < 5 :=
  ⟨rfl, rfl, rfl, rfl, by decide⟩

/-- Closed instance of the amended C1 theorem at the concrete one-row
database: the returned recommendation comes from the state tier. -/
theorem rate_cascade_min_sample_amended_witness :
    5 ≤ exRec.sample_size ∨
      ∃ t, stateTier exDb exParams = some t ∧ exRec = mkRateRec exParams t :=
  rate_cascade_min_sample_amended.2.2.2 exDb exParams exRec rfl

theorem mkGroupStats_band (spec loc : List Char) (g : List Row) (col : RateCol) (fp : ℚ) :
    (mkGroupStats spec loc g col fp).recommended_min =
        (mkGroupStats spec loc g col fp).market_average * 0.975 ∧
      (mkGroupStats spec loc g col fp).recommended_max =
        (mkGroupStats spec loc g col fp).market_average * 1.025 :=
  ⟨rfl, rfl⟩

theorem cityTier_band (db : List Row) (p : Params) (t : TierRow)
    (h : cityTier db p = some t) :
    t.recommended_min = t.market_average * 0.975 ∧
      t.recommended_max = t.market_average * 1.025 := by
  by_cases hc : (truthyOpt p.city && truthyOpt p.state) = true
  · simp only [cityTier, hc, if_true] at h
    rcases Option.map_eq_some'.mp h with ⟨k, _, ht⟩
    rw [← ht]
    exact mkGroupStats_band _ _ _ _ _
  · simp only [cityTier, hc, if_false] at h
    exact absurd h (by simp)

theorem stateTier_band (db : List Row) (p : Params) (t : TierRow)
    (h : stateTier db p = some t) :
    t.recommended_min = t.market_average * 0.975 ∧
      t.recommended_max = t.market_average * 1.025 := by
  by_cases hc : (truthyOpt p.state || truthyOpt p.location) = true
  · simp only [stateTier, hc, if_true] at h
    rcases Option.map_eq_some'.mp h with ⟨k, _, ht⟩
    rw [← ht]
    exact mkGroupStats_band _ _ _ _ _
  · simp only [stateTier, hc, if_false] at h
    exact absurd h (by simp)

theorem natTier_band (db : List Row) (p : Params) (t : TierRow)
    (h : natTier db p = some t) :
    t.recommended_min = t.market_average * 0.975 ∧
      t.recommended_max = t.market_average * 1.025 := by
  simp only [natTier] at h
  rcases Option.map_eq_some'.mp h with ⟨k, _, ht⟩
  rw [← ht]
  exact mkGroupStats_band _ _ _ _ _

theorem getRateRecommendation_from_tier (db : List Row) (p : Params) (r : RateRec)
    (h : getRateRecommendation db p = some r) :
    ∃ t, (cityTier db p = some t ∨ stateTier db p = some t ∨ natTier db p = some t) ∧
      r = mkRateRec p t := by
  by_cases hs : truthyOpt p.specialty = true
  · simp only [getRateRecommendation, hs, if_true] at h
    cases hcity : cityTier db p with
    | some t =>
      rw [hcity] at h
      simp only [Option.or, Option.map, Option.some.injEq] at h
      exact ⟨t, Or.inl rfl, h.symm⟩
    | none =>
      rw [hcity] at h
      cases hstate : stateTier db p with
      | some t =>
        rw [hstate] at h
        simp only [Option.or, Option.map, Option.some.injEq] at h
        exact ⟨t, Or.inr (Or.inl rfl), h.symm⟩
      | none =>
        rw [hstate] at h
        cases hnat : natTier db p with
        | some t =>
          rw [hnat] at h
          simp only [Option.or, Option.map, Option.some.injEq] at h
          exact ⟨t, Or.inr (Or.inr rfl), h.symm⟩
        | none => rw [hnat] at h; simp [Option.or] at h
  · simp only [getRateRecommendation, hs, if_false] at h
    exact absurd h (by simp)

/-- C4: every recommendation with a positive market average brackets that
average by the ±2.5% band: `recommended_min = market_average * 0.975`,
`recommended_max = market_average * 1.025`, and
`recommended_min ≤ market_average ≤ recommended_max`. -/
theorem rate_rec_band_invariant (db : List Row) (p : Params) (r : RateRec)
    (h : getRateRecommendation db p = some r) (hpos : 0 < r.market_average) :
    r.recommended_min = r.market_average * 0.975 ∧
    r.recommended_max = r.market_average * 1.025 ∧
    r.recommended_min ≤ r.market_average ∧ r.market_average ≤ r.recommended_max := by
  rcases getRateRecommendation_from_tier db p r h with ⟨t, htier, hr⟩
  have hband : t.recommended_min = t.market_average * 0.975 ∧
      t.recommended_max = t.market_average * 1.025 := by
    rcases htier with h1 | h2 | h3
    · exact cityTier_band db p t h1
    · exact stateTier_band db p t h2
    · exact natTier_band db p t h3
  have hmin : r.recommended_min = r.market_average * 0.975 := by
    rw [hr]; exact hband.1
  have hmax : r.recommended_max = r.market_average * 1.025 := by
    rw [hr]; exact hband.2
  refine ⟨hmin, hmax, ?_, ?_⟩
  · rw [hmin]; nlinarith [hpos]
  · rw [hmax]; nlinarith [hpos]

/-- Closed instance of the C4 theorem at the concrete one-row database. -/
theorem rate_rec_band_invariant_witness :
    exRec.recommended_min = exRec.market_average * 0.975 ∧
    exRec.recommended_max = exRec.market_average * 1.025 ∧
    exRec.recommended_min ≤ exRec.market_average ∧
      exRec.market_average ≤ exRec.recommended_max :=
  rate_rec_band_invariant exDb exParams exRec rfl
    (by norm_num [exRec, mkRateRec, exTier, mkGroupStats, listAvg, colValue, exRow,
      List.filterMap_cons, List.filterMap_nil])

/-- C6: the rate-metric selector maps `'hourly_pay'` to the hourly-pay column,
`'weekly_pay'` to the weekly-pay column, and any absent or unrecognized token
to the bill-rate column; the competitive-floor percentile is 0.35 exactly for
the two pay tokens and 0.25 otherwise. -/
theorem rate_metric_selection (rt : Option (List Char))
    (h1 : rt ≠ some "hourly_pay".data) (h2 : rt ≠ some "weekly_pay".data) :
    rateColumnFor (some "hourly_pay".data) = RateCol.hourly ∧
    rateColumnFor (some "weekly_pay".data) = RateCol.weekly ∧
    rateColumnFor none = RateCol.bill ∧
    rateColumnFor rt = RateCol.bill ∧
    (∀ rt2, floorPercentileFor rt2 = 0.35 ↔
      (rt2 = some "hourly_pay".data ∨ rt2 = some "weekly_pay".data)) ∧
    floorPercentileFor rt = 0.25 := by
  refine ⟨by decide, by decide, by decide, ?_, ?_, ?_⟩
  · simp [rateColumnFor, h1, h2]
  · intro rt2
    by_cases h : rt2 = some "weekly_pay".data ∨ rt2 = some "hourly_pay".data
    · unfold floorPercentileFor
      rw [if_pos h]
      exact ⟨fun _ => Or.symm h, fun _ => rfl⟩
    · unfold floorPercentileFor
      rw [if_neg h]
      exact ⟨fun hq => absurd hq (by norm_num), fun hor => absurd (Or.symm hor) h⟩
  · simp [floorPercentileFor, h1, h2]

/-- Closed instance of the C6 theorem at an unrecognized token. -/
theorem rate_metric_selection_witness :
    rateColumnFor (some "hourly_pay".data) = RateCol.hourly ∧
    rateColumnFor (some "weekly_pay".data) = RateCol.weekly ∧
    rateColumnFor none = RateCol.bill ∧
    rateColumnFor (some "annual_pay".data) = RateCol.bill ∧
    (∀ rt2, floorPercentileFor rt2 = 0.35 ↔
      (rt2 = some "hourly_pay".data ∨ rt2 = some "weekly_pay".data)) ∧
    floorPercentileFor (some "annual_pay".data) = 0.25 :=
  rate_metric_selection (some "annual_pay".data) (by decide) (by decide)

/-- Outcome of a Python statistic computation: the guarded insufficient-data
early return, an uncaught `ZeroDivisionError`, or a computed value. -/
inductive StatOutcome
  | insufficient
  | raised
  | value (q : ℚ)
deriving DecidableEq

/-- The estimated-percentile computation of `main.py` lines 918-941, with each
float division modelled explicitly: dividing by zero is `raised`.  The
`market_avg == 0` early return is the guarded insufficient-data outcome; the
interpolation branch divides by `market_avg - competitive_floor` with no
guard. -/
def estimatedPercentile (marketAvg compFloor proposed : ℚ) : StatOutcome :=
  if marketAvg = 0 then StatOutcome.insufficient
  else if 0 < compFloor then
    if proposed < compFloor then
      if compFloor = 0 then StatOutcome.raised
      else StatOutcome.value (proposed / compFloor * 25)
    else
      if marketAvg - compFloor = 0 then StatOutcome.raised
      else StatOutcome.value (25 + (proposed - compFloor) / (marketAvg - compFloor) * 25)
  else
    StatOutcome.value (proposed / marketAvg * 100 / 2)

/-- The per-horizon growth-rate computation of
`forecasting_integration.py` lines 269-272:
`((forecast - current) / current * 100) if current_value > 0 else 0`,
again with the division modelled explicitly. -/
def growthRateOutcome (current forecastVal : ℚ) : StatOutcome :=
  if 0 < current then
    if current = 0 then StatOutcome.raised
    else StatOutcome.value ((forecastVal - current) / current * 100)
  else StatOutcome.value 0

/-- C2 counterexample: with `market_average = competitive_floor = 100 > 0` and
a proposed rate of 100, the estimated-percentile computation divides by
`market_average - competitive_floor = 0` and raises, so the claim that it
never raises when `competitive_floor > 0` and
`market_average = competitive_floor` is false on the code. -/
theorem estimated_percentile_div_zero_counterexample :
    (0 : ℚ) < 100 ∧ (100 : ℚ) = 100 ∧
      estimatedPercentile 100 100 100 = StatOutcome.raised :=
  ⟨by norm_num, rfl, by norm_num [estimatedPercentile]⟩

/-- C2 (amended): the division by the market average is guarded by the
`market_avg == 0` early return and the forecast growth-rate divisions are
guarded by `current_value > 0`, but the percentile interpolation is not: it
raises exactly when `competitive_floor > 0`, the proposed rate is at or above
the floor, and `market_average = competitive_floor`. -/
theorem statistic_division_guards_amended (m f p current forecastVal : ℚ) :
    (estimatedPercentile m f p = StatOutcome.raised ↔ (0 < f ∧ f ≤ p ∧ m = f)) ∧
    (estimatedPercentile m f p = StatOutcome.insufficient ↔ m = 0) ∧
    (∃ q, growthRateOutcome current forecastVal = StatOutcome.value q) := by
  refine ⟨?_, ?_, ?_⟩
  · constructor
    · intro h
      by_cases hm : m = 0
      · simp [estimatedPercentile, hm] at h
      · by_cases hf : 0 < f
        · by_cases hp : p < f
          · have hf0 : ¬ f = 0 := ne_of_gt hf
            simp [estimatedPercentile, hm, hf, hp, hf0] at h
          · by_cases hd : m - f = 0
            · exact ⟨hf, le_of_not_lt hp, by linarith [sub_eq_zero.mp hd]⟩
            · simp [estimatedPercentile, hm, hf, hp, hd] at h
        · simp [estimatedPercentile, hm, hf] at h
    · rintro ⟨hf, hp, hmf⟩
      have hm : ¬ m = 0 := by rw [hmf]; exact ne_of_gt hf
      have hp' : ¬ p < f := not_lt.mpr hp
      have hd : m - f = 0 := by rw [hmf]; ring
      simp [estimatedPercentile, hm, hf, hp', hd]
  · constructor
    · intro h
      by_cases hm : m = 0
      · exact hm
      · simp only [estimatedPercentile, hm, if_false] at h
        by_cases hf : 0 < f
        · by_cases hp : p < f
          · have hf0 : ¬ f = 0 := ne_of_gt hf
            simp [hf, hp, hf0] at h
          · by_cases hd : m - f = 0 <;> simp [hf, hp, hd] at h
        · simp [hf] at h
    · intro hm
      simp [estimatedPercentile, hm]
  · by_cases hc : 0 < current
    · have hc0 : ¬ current = 0 := ne_of_gt hc
      exact ⟨(forecastVal - current) / current * 100, by simp [growthRateOutcome, hc, hc0]⟩
    · exact ⟨0, by simp [growthRateOutcome, hc]⟩

/-- Closed instance of the amended C2 theorem: at `market_average = 100`,
`competitive_floor = 50`, `proposed = 60` the computation does not raise, and
the growth rate at `current = 5` is a plain value. -/
theorem statistic_division_guards_amended_witness :
    (estimatedPercentile 100 50 60 = StatOutcome.raised ↔
      ((0 : ℚ) < 50 ∧ (50 : ℚ) ≤ 60 ∧ (100 : ℚ) = 50)) ∧
    (estimatedPercentile 100 50 60 = StatOutcome.insufficient ↔ (100 : ℚ) = 0) ∧
    (∃ q, growthRateOutcome 5 7 = StatOutcome.value q) :=
  statistic_division_guards_amended 100 50 60 5 7

/-- `forecast_points[i]["yhat"] if len(forecast_points) > i else 0`. -/
def horizonValue (fp : List ℚ) (i : Nat) : ℚ :=
  if i < fp.length then fp.getD i 0 else 0

/-- The guarded growth-rate expression as a plain value (the guard makes the
division safe, see `growthRateOutcome`). -/
def growthRateValue (current forecastVal : ℚ) : ℚ :=
  if 0 < current then (forecastVal - current) / current * 100 else 0

/-- Python `round(x, 2)`; Python rounds half-to-even while Mathlib's `round`
rounds half-up, but no modelled value sits on a half-cent tie. -/
def round2 (q : ℚ) : ℚ := ((round (q * 100) : ℤ) : ℚ) / 100

/-- Python `round(x, 1)`, used for the growth rates (lines 293-296). -/
def round1 (q : ℚ) : ℚ := ((round (q * 10) : ℤ) : ℚ) / 10

/-- `historical_points[-1]["y"]` when history exists, else the first forecast
point (the caller guarantees `fp` is non-empty on this path). -/
def currentValue (fp hist : List ℚ) : ℚ :=
  match hist.getLast? with
  | some v => v
  | none => fp.headD 0

/-- The insight dictionary assembled by `extract_forecast_insights`,
restricted to its numeric core. -/
structure ForecastInsight where
  current_value : ℚ
  forecast_4 : ℚ
  forecast_12 : ℚ
  forecast_26 : ℚ
  forecast_52 : ℚ
  growth_4 : ℚ
  growth_12 : ℚ
  growth_26 : ℚ
  growth_52 : ℚ
  trend_direction : List Char
deriving DecidableEq

/-- The success payload of `extract_forecast_insights` (lines 252-305):
horizon values default to 0 when the forecast list is too short, growth rates
are guarded by `current_value > 0`, trend classification uses the unrounded
12-week growth. -/
def insightsRecord (fp hist : List ℚ) : ForecastInsight :=
  let current := currentValue fp hist
  let g12 := growthRateValue current (horizonValue fp 11)
  { current_value := round2 current
    forecast_4 := round2 (horizonValue fp 3)
    forecast_12 := round2 (horizonValue fp 11)
    forecast_26 := round2 (horizonValue fp 25)
    forecast_52 := round2 (horizonValue fp 51)
    growth_4 := round1 (growthRateValue current (horizonValue fp 3))
    growth_12 := round1 g12
    growth_26 := round1 (growthRateValue current (horizonValue fp 25))
    growth_52 := round1 (growthRateValue current (horizonValue fp 51))
    trend_direction :=
      if 1 < g12 then "increasing".data
      else if g12 < -1 then "decreasing".data
      else "stable".data }

/-- `extract_forecast_insights` numeric core: an error dictionary (`none`)
when the forecast point list is empty, otherwise the assembled insights. -/
def extractForecastInsights (fp hist : List ℚ) : Option ForecastInsight :=
  if fp.isEmpty then none else some (insightsRecord fp hist)

theorem horizonValue_of_short (fp : List ℚ) (i : Nat) (h : fp.length ≤ i) :
    horizonValue fp i = 0 := by
  simp [horizonValue, Nat.not_lt.mpr h]

theorem round2_zero : round2 0 = 0 := by
  norm_num [round2]

theorem growthRateValue_zero_forecast (c : ℚ) (hc : 0 < c) :
    growthRateValue c 0 = -100 := by
  rw [growthRateValue, if_pos hc, zero_sub, neg_div, div_self (ne_of_gt hc)]
  ring

theorem round1_neg_hundred : round1 (-100) = -100 := by
  norm_num [round1, round_eq]

/-- C10: when the forecast list is non-empty but shorter than a horizon's
index, `extract_forecast_insights` still returns an insight record (no
exception); that horizon's forecast is reported as 0 and, for a positive
current value, the corresponding growth rate is −100%. -/
theorem short_forecast_horizons_zero (fp hist : List ℚ) (hne : fp ≠ []) :
    ∃ ins, extractForecastInsights fp hist = some ins ∧
      (fp.length ≤ 3 → ins.forecast_4 = 0 ∧
        (0 < currentValue fp hist → ins.growth_4 = -100)) ∧
      (fp.length ≤ 11 → ins.forecast_12 = 0 ∧
        (0 < currentValue fp hist → ins.growth_12 = -100)) ∧
      (fp.length ≤ 25 → ins.forecast_26 = 0 ∧
        (0 < currentValue fp hist → ins.growth_26 = -100)) ∧
      (fp.length ≤ 51 → ins.forecast_52 = 0 ∧
        (0 < currentValue fp hist → ins.growth_52 = -100)) := by
  have h0 : fp.isEmpty = false := by
    cases fp with
    | nil => exact absurd rfl hne
    | cons a as => rfl
  refine ⟨insightsRecord fp hist, by simp [extractForecastInsights, h0], ?_, ?_, ?_, ?_⟩
  all_goals
    intro hlen
    constructor
  · rw [show (insightsRecord fp hist).forecast_4 = round2 (horizonValue fp 3) from rfl,
      horizonValue_of_short fp 3 hlen, round2_zero]
  · intro hc
    rw [show (insightsRecord fp hist).growth_4 =
        round1 (growthRateValue (currentValue fp hist) (horizonValue fp 3)) from rfl,
      horizonValue_of_short fp 3 hlen, growthRateValue_zero_forecast _ hc, round1_neg_hundred]
  · rw [show (insightsRecord fp hist).forecast_12 = round2 (horizonValue fp 11) from rfl,
      horizonValue_of_short fp 11 hlen, round2_zero]
  · intro hc
    rw [show (insightsRecord fp hist).growth_12 =
        round1 (growthRateValue (currentValue fp hist) (horizonValue fp 11)) from rfl,
      horizonValue_of_short fp 11 hlen, growthRateValue_zero_forecast _ hc, round1_neg_hundred]
  · rw [show (insightsRecord fp hist).forecast_26 = round2 (horizonValue fp 25) from rfl,
      horizonValue_of_short fp 25 hlen, round2_zero]
  · intro hc
    rw [show (insightsRecord fp hist).growth_26 =
        round1 (growthRateValue (currentValue fp hist) (horizonValue fp 25)) from rfl,
      horizonValue_of_short fp 25 hlen, growthRateValue_zero_forecast _ hc, round1_neg_hundred]
  · rw [show (insightsRecord fp hist).forecast_52 = round2 (horizonValue fp 51) from rfl,
      horizonValue_of_short fp 51 hlen, round2_zero]
  · intro hc
    rw [show (insightsRecord fp hist).growth_52 =
        round1 (growthRateValue (currentValue fp hist) (horizonValue fp 51)) from rfl,
      horizonValue_of_short fp 51 hlen, growthRateValue_zero_forecast _ hc, round1_neg_hundred]

/-- Closed instance of the C10 theorem at the one-point forecast `[50]` with
no history. -/
theorem short_forecast_horizons_zero_witness :
    ∃ ins, extractForecastInsights [(50 : ℚ)] [] = some ins ∧
      (([(50 : ℚ)] : List ℚ).length ≤ 3 → ins.forecast_4 = 0 ∧
        (0 < currentValue [(50 : ℚ)] [] → ins.growth_4 = -100)) ∧
      (([(50 : ℚ)] : List ℚ).length ≤ 11 → ins.forecast_12 = 0 ∧
        (0 < currentValue [(50 : ℚ)] [] → ins.growth_12 = -100)) ∧
      (([(50 : ℚ)] : List ℚ).length ≤ 25 → ins.forecast_26 = 0 ∧
        (0 < currentValue [(50 : ℚ)] [] → ins.growth_26 = -100)) ∧
      (([(50 : ℚ)] : List ℚ).length ≤ 51 → ins.forecast_52 = 0 ∧
        (0 < currentValue [(50 : ℚ)] [] → ins.growth_52 = -100)) :=
  short_forecast_horizons_zero [(50 : ℚ)] [] (by decide)

/-- Outcome of the `except` branch of `generate_forecast_analysis` (lines
515-599), abstracting the per-state insight payload as `α`.  `unboundLocal`
is the `UnboundLocalError` Python raises when the branch reads a local that
was never assigned. -/
inductive FallbackOutcome (α : Type)
  | multiState (state_forecasts : List (List Char × α))
      (requested_location : List Char) (is_multi_state_fallback : Bool)
      (fallback_reason : List Char) (time_horizon : List Char)
  | unboundLocal
  | failure (msg : List Char)

/-- The fixed ordered list of top CRNA states (line 527). -/
def topCrnaStates : List (List Char) :=
  ["CA".data, "TX".data, "FL".data, "NY".data, "PA".data]

/-- The retry loop of lines 531-568: try each state in order against the
forecasting service (`oracle`; `none` covers both an exception and an
error-marked insight), append successes, and break once 3 are collected. -/
def collectStateForecasts {α : Type} (oracle : List Char → Option α) :
    List (List Char) → List (List Char × α) → List (List Char × α)
  | [], acc => acc
  | s :: rest, acc =>
    match oracle s with
    | none => collectStateForecasts oracle rest acc
    | some i =>
      let acc' := acc ++ [(s, i)]
      if 3 ≤ acc'.length then acc' else collectStateForecasts oracle rest acc'

/-- Line 520-521: the fallback triggers only for CRNA specialties whose error
message signals missing history. -/
def crnaFallbackTriggered (specialty err : List Char) : Bool :=
  hasSub "CRNA".data (pyUpper specialty) &&
    (hasSub "Not enough historical data".data err ||
      hasSub "Unable to generate".data err)

/-- Line 528: the retried list excludes the state that already failed. -/
def fallbackRetryStates (normalizedState : Option (List Char)) : List (List Char) :=
  match normalizedState with
  | some st => topCrnaStates.filter (fun s => decide (s ≠ st))
  | none => topCrnaStates

/-- Line 523/585: the originally requested scope. -/
def requestedScope (normalizedState : Option (List Char)) : List Char :=
  match normalizedState with
  | some st => st
  | none => "national".data

/-- Line 574-578: the disclosed fallback reason. -/
def fallbackReason (normalizedState : Option (List Char)) : List Char :=
  match normalizedState with
  | some st =>
      "Insufficient CRNA data in ".data ++ st ++ " - showing similar states instead".data
  | none => "Insufficient national CRNA data - showing top states instead".data

/-- The whole `except` branch: on a CRNA insufficient-data failure, retry the
top states; with at least 2 successes build the multi-state return dict
(lines 580-594), otherwise surface the original failure message.
`selectedHorizon` models the local variable `selected_horizon` read at line
593: it is `some h` only when the exception was raised after its sole
assignment at line 495.  The qualifying error strings are raised only by the
`get_rate_forecast` call at line 421 (the national retry at line 469 catches
its own exceptions), which precedes line 495, so on every reachable
triggering path the local is unbound (`none`) and building the dict raises
`UnboundLocalError`. -/
def handleForecastFailure {α : Type} (specialty err : List Char)
    (normalizedState : Option (List Char)) (oracle : List Char → Option α)
    (selectedHorizon : Option (List Char)) : FallbackOutcome α :=
  if crnaFallbackTriggered specialty err then
    let sf := collectStateForecasts oracle (fallbackRetryStates normalizedState) []
    if 2 ≤ sf.length then
      match selectedHorizon with
      | some h =>
        FallbackOutcome.multiState sf (requestedScope normalizedState) true
          (fallbackReason normalizedState) h
      | none => FallbackOutcome.unboundLocal
    else FallbackOutcome.failure ("Forecast analysis failed: ".data ++ err)
  else FallbackOutcome.failure ("Forecast analysis failed: ".data ++ err)

theorem collectStateForecasts_length {α : Type} (oracle : List Char → Option α) :
    ∀ (l : List (List Char)) (acc : List (List Char × α)), acc.length < 3 →
      (collectStateForecasts oracle l acc).length =
        min (acc.length + l.countP (fun s => (oracle s).isSome)) 3 := by
  intro l
  induction l with
  | nil =>
    intro acc hacc
    simp [collectStateForecasts, Nat.min_eq_left (Nat.le_of_lt hacc)]
  | cons s rest ih =>
    intro acc hacc
    simp only [collectStateForecasts]
    cases ho : oracle s with
    | none =>
      rw [ih acc hacc, List.countP_cons]
      simp [ho]
    | some i =>
      simp only
      rw [List.countP_cons]
      simp only [ho, Option.isSome_some, eq_self_iff_true, if_true]
      by_cases h3 : 3 ≤ (acc ++ [(s, i)]).length
      · rw [if_pos h3]
        have hlen : (acc ++ [(s, i)]).length = acc.length + 1 := by simp
        have h3' : acc.length + 1 = 3 := by omega
        rw [hlen, h3']
        omega
      · rw [if_neg h3]
        have hlen : (acc ++ [(s, i)]).length = acc.length + 1 := by simp
        rw [ih _ (by omega), hlen]
        omega

/-- C3 (code bug): the claim describes the intended multi-state fallback, but
on every reachable trigger of the CRNA fallback the local `selected_horizon`
is unbound; with at least 2 successful state retries the code raises
`UnboundLocalError` while building the multi-state return dict instead of
returning the labelled result.  Had the local been bound (`some h`), the
labelled multi-state result with the requested location preserved would be
returned; with fewer than 2 successes the original failure is surfaced as the
claim says. -/
theorem crna_multi_state_fallback_bug {α : Type} (specialty err h : List Char)
    (normalizedState : Option (List Char)) (oracle : List Char → Option α)
    (htrig : crnaFallbackTriggered specialty err = true) :
    (2 ≤ (fallbackRetryStates normalizedState).countP (fun s => (oracle s).isSome) →
      handleForecastFailure specialty err normalizedState oracle none =
          FallbackOutcome.unboundLocal ∧
        ∃ sf, handleForecastFailure specialty err normalizedState oracle (some h) =
            FallbackOutcome.multiState sf (requestedScope normalizedState) true
              (fallbackReason normalizedState) h ∧ 2 ≤ sf.length) ∧
    ((fallbackRetryStates normalizedState).countP (fun s => (oracle s).isSome) < 2 →
      handleForecastFailure specialty err normalizedState oracle none =
        FallbackOutcome.failure ("Forecast analysis failed: ".data ++ err)) := by
  have hlen := collectStateForecasts_length oracle (fallbackRetryStates normalizedState) []
    (by simp)
  simp only [List.length_nil, Nat.zero_add] at hlen
  constructor
  · intro h2
    have hsf : 2 ≤ (collectStateForecasts oracle (fallbackRetryStates normalizedState)
        []).length := by
      rw [hlen]; omega
    constructor
    · simp only [handleForecastFailure, htrig, if_true, if_pos hsf]
    · refine ⟨collectStateForecasts oracle (fallbackRetryStates normalizedState) [], ?_, hsf⟩
      simp only [handleForecastFailure, htrig, if_true, if_pos hsf]
  · intro h2
    have hsf : ¬ 2 ≤ (collectStateForecasts oracle (fallbackRetryStates normalizedState)
        []).length := by
      rw [hlen]; omega
    simp only [handleForecastFailure, htrig, if_true, if_neg hsf]

/-- Closed instance of the C3 code-bug theorem at the failing input: a CRNA
state-level failure in AZ with CA and TX succeeding raises the unbound-local
error instead of returning the multi-state result; a single success surfaces
the original failure. -/
theorem crna_multi_state_fallback_bug_witness :
    (2 ≤ (fallbackRetryStates (some "AZ".data)).countP
        (fun s => ((fun st => if st = "CA".data ∨ st = "TX".data then
          some () else none) s).isSome) →
      handleForecastFailure "CRNA".data "Not enough historical data for CRNA".data
          (some "AZ".data)
          (fun st => if st = "CA".data ∨ st = "TX".data then some () else none) none =
          FallbackOutcome.unboundLocal ∧
        ∃ sf, handleForecastFailure "CRNA".data "Not enough historical data for CRNA".data
            (some "AZ".data)
            (fun st => if st = "CA".data ∨ st = "TX".data then some () else none)
            (some "12_weeks".data) =
            FallbackOutcome.multiState sf (requestedScope (some "AZ".data)) true
              (fallbackReason (some "AZ".data)) "12_weeks".data ∧ 2 ≤ sf.length) ∧
    ((fallbackRetryStates (some "AZ".data)).countP
        (fun s => ((fun st => if st = "CA".data ∨ st = "TX".data then
          some () else none) s).isSome) < 2 →
      handleForecastFailure "CRNA".data "Not enough historical data for CRNA".data
          (some "AZ".data)
          (fun st => if st = "CA".data ∨ st = "TX".data then some () else none) none =
        FallbackOutcome.failure
          ("Forecast analysis failed: ".data ++ "Not enough historical data for CRNA".data)) :=
  crna_multi_state_fallback_bug "CRNA".data "Not enough historical data for CRNA".data
    "12_weeks".data (some "AZ".data)
    (fun st => if st = "CA".data ∨ st = "TX".data then some () else none)
    (by decide)

/-- `calculate_distance` (database_service.py lines 12-40): haversine
great-circle distance with Earth radius 3959 miles, modelled over ℝ
(`math.radians x = x * π / 180`). -/
noncomputable def calculate_distance (lat1 lon1 lat2 lon2 : ℝ) : ℝ :=
  let R : ℝ := 3959.0
  let lat1_rad := lat1 * (Real.pi / 180)
  let lon1_rad := lon1 * (Real.pi / 180)
  let lat2_rad := lat2 * (Real.pi / 180)
  let lon2_rad := lon2 * (Real.pi / 180)
  let dlat := lat2_rad - lat1_rad
  let dlon := lon2_rad - lon1_rad
  let a := Real.sin (dlat / 2) ^ 2 +
    Real.cos lat1_rad * Real.cos lat2_rad * Real.sin (dlon / 2) ^ 2
  let c := 2 * Real.arcsin (Real.sqrt a)
  R * c

theorem sin_sq_sub_symm (x y : ℝ) : Real.sin ((x - y) / 2) ^ 2 = Real.sin ((y - x) / 2) ^ 2 := by
  rw [show (x - y) / 2 = -((y - x) / 2) by ring, Real.sin_neg, neg_sq]

/-- C9: the great-circle distance is symmetric in its two points and the
distance from a point to itself is 0. -/
theorem calculate_distance_symm_and_self (lat1 lon1 lat2 lon2 : ℝ) :
    calculate_distance lat1 lon1 lat2 lon2 = calculate_distance lat2 lon2 lat1 lon1 ∧
    calculate_distance lat1 lon1 lat1 lon1 = 0 := by
  constructor
  · simp only [calculate_distance]
    rw [sin_sq_sub_symm (lat2 * (Real.pi / 180)) (lat1 * (Real.pi / 180)),
      sin_sq_sub_symm (lon2 * (Real.pi / 180)) (lon1 * (Real.pi / 180)),
      mul_comm (Real.cos (lat1 * (Real.pi / 180))) (Real.cos (lat2 * (Real.pi / 180)))]
  · simp [calculate_distance]

/-- Closed instance of the C9 theorem at concrete coordinates. -/
theorem calculate_distance_symm_and_self_witness :
    calculate_distance 40 (-75) 34 (-118) = calculate_distance 34 (-118) 40 (-75) ∧
    calculate_distance 40 (-75) 40 (-75) = 0 :=
  calculate_distance_symm_and_self 40 (-75) 34 (-118)

/-- One entry of the `trends` list returned by `get_rate_trends_by_state`. -/
structure TrendRow where
  state : List Char
  recent_rate : ℚ
  older_rate : ℚ
  percent_change : ℚ
  recent_sample_size : Nat
  older_sample_size : Nat
deriving DecidableEq

/-- WHERE conditions shared by both CTEs of the trend query. -/
def trendBaseFilter (pat : SpecialtyPattern) (col : RateCol) (prof : Option (List Char))
    (r : Row) : Bool :=
  acceptsPattern pat r.newSpecialty && (colValue r col).isSome &&
    passesRateBounds r && professionOk prof r

/-- `"startDate" >= NOW() - INTERVAL '30 days'`. -/
def recentWindow (r : Row) : Bool := r.ageDays ≤ 30

/-- `"startDate" >= NOW() - INTERVAL '90 days' AND "startDate" < NOW() - INTERVAL '30 days'`. -/
def olderWindow (r : Row) : Bool := (30 < r.ageDays) && r.ageDays ≤ 90

/-- `GROUP BY state ... HAVING COUNT(*) >= 2` with `AVG` of the active metric
and `COUNT(*)`, as in the `recent_rates`/`older_rates` CTEs. -/
def stateGroups (rows : List Row) (col : RateCol) : List (List Char × ℚ × Nat) :=
  ((rows.map (·.state)).dedup).filterMap (fun s =>
    let g := rows.filter (fun r => r.state = s)
    if 2 ≤ g.length then
      some (s, listAvg (g.filterMap (fun r => colValue r col)), g.length)
    else none)

/-- `DatabaseService.get_rate_trends_by_state` (lines 1088-1208): join the two
window aggregates on state, compute the percent change, keep changes whose
sign matches the requested direction with magnitude at least 1.0, order by
percent change (descending for rising, ascending otherwise), apply the limit,
and return `None` when nothing survives. -/
def getRateTrendsByState (db : List Row) (p : Params) (direction : List Char)
    (limit : Nat) : Option (List TrendRow) :=
  if truthyOpt p.specialty then
    let col := rateColumnFor p.rate_type
    let pat := specPattern p
    let recent := stateGroups
      (db.filter (fun r => trendBaseFilter pat col p.profession r && recentWindow r)) col
    let older := stateGroups
      (db.filter (fun r => trendBaseFilter pat col p.profession r && olderWindow r)) col
    let joined := recent.filterMap (fun rg =>
      match older.find? (fun og => og.1 = rg.1) with
      | some og =>
        some { state := rg.1, recent_rate := rg.2.1, older_rate := og.2.1,
               percent_change := (rg.2.1 - og.2.1) / og.2.1 * 100,
               recent_sample_size := rg.2.2, older_sample_size := og.2.2 : TrendRow }
      | none => none)
    let filtered := joined.filter (fun t =>
      (if direction = "rising".data then decide (0 < t.percent_change)
       else decide (t.percent_change < 0)) && decide (1 ≤ |t.percent_change|))
    let sorted := filtered.mergeSort (fun a b =>
      if direction = "rising".data then decide (b.percent_change ≤ a.percent_change)
      else decide (a.percent_change ≤ b.percent_change))
    let ts := sorted.take limit
    if ts.isEmpty then none else some ts
  else none

theorem stateGroups_sample (rows : List Row) (col : RateCol)
    (g : List Char × ℚ × Nat) (h : g ∈ stateGroups rows col) : 2 ≤ g.2.2 := by
  rcases List.mem_filterMap.mp h with ⟨s, _, hg⟩
  simp only at hg
  by_cases h2 : 2 ≤ (rows.filter (fun r => decide (r.state = s))).length
  · rw [if_pos h2] at hg
    cases hg
    exact h2
  · rw [if_neg h2] at hg
    exact absurd hg (by simp)

/-- C7: every entry of the trend output has a percent change whose sign
matches the requested direction ('rising' means positive, anything else means
negative), magnitude at least 1.0, and at least 2 samples in each of the two
time windows. -/
theorem trend_output_properties (db : List Row) (p : Params) (direction : List Char)
    (limit : Nat) (ts : List TrendRow) (t : TrendRow)
    (hq : getRateTrendsByState db p direction limit = some ts) (ht : t ∈ ts) :
    (direction = "rising".data → 0 < t.percent_change) ∧
    (direction ≠ "rising".data → t.percent_change < 0) ∧
    1 ≤ |t.percent_change| ∧
    2 ≤ t.recent_sample_size ∧ 2 ≤ t.older_sample_size := by
  by_cases hs : truthyOpt p.specialty = true
  · simp only [getRateTrendsByState, hs, if_true] at hq
    set col := rateColumnFor p.rate_type with hcol
    set pat := specPattern p with hpat
    set recent := stateGroups
      (db.filter (fun r => trendBaseFilter pat col p.profession r && recentWindow r)) col
      with hrecent
    set older := stateGroups
      (db.filter (fun r => trendBaseFilter pat col p.profession r && olderWindow r)) col
      with holder
    set joined := recent.filterMap (fun rg =>
      match older.find? (fun og => og.1 = rg.1) with
      | some og =>
        some { state := rg.1, recent_rate := rg.2.1, older_rate := og.2.1,
               percent_change := (rg.2.1 - og.2.1) / og.2.1 * 100,
               recent_sample_size := rg.2.2, older_sample_size := og.2.2 : TrendRow }
      | none => none) with hjoined
    set filtered := joined.filter (fun t =>
      (if direction = "rising".data then decide (0 < t.percent_change)
       else decide (t.percent_change < 0)) && decide (1 ≤ |t.percent_change|)) with hfiltered
    set sorted := filtered.mergeSort (fun a b =>
      if direction = "rising".data then decide (b.percent_change ≤ a.percent_change)
      else decide (a.percent_change ≤ b.percent_change)) with hsorted
    by_cases he : (sorted.take limit).isEmpty = true
    · rw [if_pos he] at hq
      exact absurd hq (by simp)
    · rw [if_neg he] at hq
      have hts : ts = sorted.take limit := (Option.some.injEq _ _).mp hq.symm
      have hmem1 : t ∈ sorted := List.mem_of_mem_take (hts ▸ ht)
      have hmem2 : t ∈ filtered := by
        rw [hsorted] at hmem1
        exact (List.mergeSort_perm filtered _).mem_iff.mp hmem1
      have hprops := (List.mem_filter.mp hmem2).2
      have hmem3 : t ∈ joined := (List.mem_filter.mp hmem2).1
      simp only [Bool.and_eq_true, decide_eq_true_eq] at hprops
      rcases List.mem_filterMap.mp hmem3 with ⟨rg, hrg, hmk⟩
      have hsamples : 2 ≤ t.recent_sample_size ∧ 2 ≤ t.older_sample_size := by
        cases hfind : older.find? (fun og => og.1 = rg.1) with
        | none => rw [hfind] at hmk; exact absurd hmk (by simp)
        | some og =>
          rw [hfind] at hmk
          have hog : og ∈ older := List.mem_of_find?_eq_some hfind
          have h1 := stateGroups_sample _ _ rg hrg
          have h2 := stateGroups_sample _ _ og hog
          cases hmk
          exact ⟨h1, h2⟩
      refine ⟨?_, ?_, hprops.2, hsamples.1, hsamples.2⟩
      · intro hdir
        have := hprops.1
        rw [if_pos hdir] at this
        exact of_decide_eq_true this
      · intro hdir
        have := hprops.1
        rw [if_neg hdir] at this
        exact of_decide_eq_true this
  · simp only [getRateTrendsByState, hs, if_false] at hq
    exact absurd hq (by simp)

def trow1 : Row := { exRow with billRate := some 110, ageDays := 5 }

def trow2 : Row := { exRow with billRate := some 110, ageDays := 10 }

def trow3 : Row := { exRow with billRate := some 100, ageDays := 40 }

def trow4 : Row := { exRow with billRate := some 100, ageDays := 50 }

/-- Four ICU rows in AZ: two in the recent window at 110 and two in the prior
window at 100, a +10% trend. -/
def trendDb : List Row := [trow1, trow2, trow3, trow4]

def trendParams : Params :=
  { specialty := some "ICU".data
    location := none
    city := none
    state := none
    rate_type := none
    profession := none }

/-- The single trend entry produced for `trendDb`. -/
def exTrendRow : TrendRow :=
  { state := "AZ".data
    recent_rate := 110
    older_rate := 100
    percent_change := 10
    recent_sample_size := 2
    older_sample_size := 2 }

theorem trendDb_output : getRateTrendsByState trendDb trendParams "rising".data 5 =
    some [exTrendRow] := by
  have hrec : List.filter (fun r => trendBaseFilter (specPattern trendParams)
      (rateColumnFor trendParams.rate_type) trendParams.profession r && recentWindow r)
      trendDb = [trow1, trow2] := by decide
  have hold : List.filter (fun r => trendBaseFilter (specPattern trendParams)
      (rateColumnFor trendParams.rate_type) trendParams.profession r && olderWindow r)
      trendDb = [trow3, trow4] := by decide
  have hsg1 : stateGroups [trow1, trow2] (rateColumnFor trendParams.rate_type) =
      [("AZ".data, listAvg [110, 110], 2)] := rfl
  have hsg2 : stateGroups [trow3, trow4] (rateColumnFor trendParams.rate_type) =
      [("AZ".data, listAvg [100, 100], 2)] := rfl
  have havg1 : listAvg [(110 : ℚ), 110] = 110 := by norm_num [listAvg]
  have havg2 : listAvg [(100 : ℚ), 100] = 100 := by norm_num [listAvg]
  simp only [getRateTrendsByState]
  rw [if_pos (show truthyOpt trendParams.specialty = true from rfl)]
  rw [hrec, hold, hsg1, hsg2, havg1, havg2]
  norm_num [List.find?, List.filterMap, List.filter, exTrendRow]

/-- Closed instance of the C7 theorem at the four-row database. -/
theorem trend_output_properties_witness :
    ("rising".data = "rising".data → 0 < exTrendRow.percent_change) ∧
    ("rising".data ≠ "rising".data → exTrendRow.percent_change < 0) ∧
    1 ≤ |exTrendRow.percent_change| ∧
    2 ≤ exTrendRow.recent_sample_size ∧ 2 ≤ exTrendRow.older_sample_size :=
  trend_output_properties trendDb trendParams "rising".data 5 [exTrendRow] exTrendRow
    trendDb_output (List.mem_singleton.mpr rfl)

/-- One client row of the "similar" ranking result. -/
structure ClientRow where
  client_name : List Char
  city : List Char
  state : List Char
  specialty : List Char
  avg_rate : ℚ
  assignment_count : Nat
deriving DecidableEq

/-- The inline regex of the client queries:
`specialty ~ ('(^|\s|-)' || $1 || '($|\s)')` — hyphen allowed on the left
boundary only. -/
def inlineSpecMatch (spec t : List Char) : Bool :=
  searchPat spec boundaryOk spaceOk none t

/-- WHERE clause of the "similar" client query (lines 614-661): inline
specialty regex, optional state restriction, active metric within the band,
current/future start date, sanity bounds, non-null client name. -/
def similarPass (spec : List Char) (loc : Option (List Char)) (col : RateCol)
    (minR maxR : ℚ) (r : Row) : Bool :=
  inlineSpecMatch spec r.specialty &&
    (match loc with | none => true | some l => lowerEq r.state l) &&
    (match colValue r col with | none => false | some v => minR ≤ v && v ≤ maxR) &&
    r.ageDays ≤ 0 && passesRateBounds r && r.clientName.isSome

/-- `GROUP BY "clientName", city, state, specialty`. -/
def clientKey (r : Row) : Option (List Char) × List Char × List Char × List Char :=
  (r.clientName, r.city, r.state, r.specialty)

/-- The SELECT list of the client query plus the dictionary defaults of lines
669-678. -/
def mkClientRow (col : RateCol) (k : Option (List Char) × List Char × List Char × List Char)
    (g : List Row) : ClientRow :=
  { client_name := k.1.getD "Unknown".data
    city := k.2.1
    state := k.2.2.1
    specialty := k.2.2.2
    avg_rate := listAvg (g.filterMap (fun r => colValue r col))
    assignment_count := g.length }

/-- The `rate_filter = 'similar'` branch of `get_clients_by_rate` with an
explicit target rate: band `target ± tolerance%`, grouping by client key,
`ORDER BY assignment_count DESC, avg_rate DESC`, `LIMIT 15`. -/
def similarClients (db : List Row) (spec : List Char) (loc : Option (List Char))
    (col : RateCol) (target tol : ℚ) : List ClientRow :=
  let minR := target * (1 - tol / 100)
  let maxR := target * (1 + tol / 100)
  let ms := db.filter (similarPass spec loc col minR maxR)
  let keys := (ms.map clientKey).dedup
  let rows := keys.map (fun k => mkClientRow col k (ms.filter (fun r => clientKey r = k)))
  (rows.mergeSort (fun a b =>
    decide (b.assignment_count < a.assignment_count) ||
      (decide (a.assignment_count = b.assignment_count) &&
        decide (b.avg_rate ≤ a.avg_rate)))).take 15

theorem dedup_length_mono {α : Type} [DecidableEq α] (l1 l2 : List α)
    (h : ∀ x, x ∈ l1 → x ∈ l2) : l1.dedup.length ≤ l2.dedup.length := by
  have hsub : l1.toFinset ⊆ l2.toFinset := fun x hx =>
    List.mem_toFinset.mpr (h x (List.mem_toFinset.mp hx))
  have hcard := Finset.card_le_card hsub
  rwa [List.card_toFinset, List.card_toFinset] at hcard

theorem similarPass_mono (spec : List Char) (loc : Option (List Char)) (col : RateCol)
    (min1 max1 min2 max2 : ℚ) (hmin : min2 ≤ min1) (hmax : max1 ≤ max2) (r : Row)
    (h : similarPass spec loc col min1 max1 r = true) :
    similarPass spec loc col min2 max2 r = true := by
  simp only [similarPass, Bool.and_eq_true] at h ⊢
  refine ⟨⟨⟨⟨⟨h.1.1.1.1.1, h.1.1.1.1.2⟩, ?_⟩, h.1.1.2⟩, h.1.2⟩, h.2⟩
  have hband := h.1.1.1.2
  cases hv : colValue r col with
  | none => rw [hv] at hband; exact absurd hband (by simp)
  | some v =>
    rw [hv] at hband
    simp only [Bool.and_eq_true, decide_eq_true_eq] at hband ⊢
    exact ⟨le_trans hmin hband.1, le_trans hband.2 hmax⟩

/-- C8: for a fixed specialty, location, target rate (≥ 0) and row set,
raising the tolerance never shrinks the number of facilities returned by the
"similar" client ranking. -/
theorem similar_clients_tolerance_monotone (db : List Row) (spec : List Char)
    (loc : Option (List Char)) (col : RateCol) (target t1 t2 : ℚ)
    (htarget : 0 ≤ target) (ht : t1 ≤ t2) :
    (similarClients db spec loc col target t1).length ≤
      (similarClients db spec loc col target t2).length := by
  have hmin : target * (1 - t2 / 100) ≤ target * (1 - t1 / 100) :=
    mul_le_mul_of_nonneg_left (by linarith) htarget
  have hmax : target * (1 + t1 / 100) ≤ target * (1 + t2 / 100) :=
    mul_le_mul_of_nonneg_left (by linarith) htarget
  have hkeys : ((db.filter (similarPass spec loc col (target * (1 - t1 / 100))
        (target * (1 + t1 / 100)))).map clientKey).dedup.length ≤
      ((db.filter (similarPass spec loc col (target * (1 - t2 / 100))
        (target * (1 + t2 / 100)))).map clientKey).dedup.length := by
    apply dedup_length_mono
    intro x hx
    rcases List.mem_map.mp hx with ⟨r, hr, hkey⟩
    have hr' := List.mem_filter.mp hr
    exact List.mem_map.mpr ⟨r, List.mem_filter.mpr
      ⟨hr'.1, similarPass_mono spec loc col _ _ _ _ hmin hmax r hr'.2⟩, hkey⟩
  simp only [similarClients, List.length_take, List.length_mergeSort, List.length_map]
  exact min_le_min le_rfl hkeys

/-- Closed instance of the C8 theorem: tolerances 0% and 10% around a target
of 100. -/
theorem similar_clients_tolerance_monotone_witness :
    (similarClients exDb "ICU".data (some "AZ".data) RateCol.bill 100 0).length ≤
      (similarClients exDb "ICU".data (some "AZ".data) RateCol.bill 100 10).length :=
  similar_clients_tolerance_monotone exDb "ICU".data (some "AZ".data) RateCol.bill 100 0 10
    (by norm_num) (by norm_num)
